import Mathlib

/-!
Shallow embedding of `diskplot.py` (plotting helpers for circumbinary disks).

The module has three functions: `plot_polar_contour`, `plot_polar_heatmap`
and `plot_heatmap`.  We embed the data-preparation logic: numpy's
`histogram2d` (bin edges, bin assignment, counting), `linspace`, array
`min`/`max`, elementwise broadcasting, the axis-averaging step, the
non-finite / zero substitution steps, and the normalization resolution of
`plot_heatmap`, as well as the argument construction of
`plot_polar_heatmap`.  Rendering calls (imshow, contourf, colorbar) are
external collaborators; we record exactly the data handed to them.

Real numbers of the Python code are modelled as exact rationals `ℚ`.
Degenerate float values (inf, -inf, nan) only ever arise in this code from
dividing a finite histogram count by a zero mean; a possibly-degenerate
cell is therefore modelled as `Option ℚ`, with `none` standing for any
non-finite float.  Python exceptions are modelled with `Except PyErr`.
-/

/-- Python exceptions that this module can raise: failed `assert`
statements and numpy `ValueError`s. -/
inductive PyErr where
  | assertionError (msg : String)
  | valueError (msg : String)
deriving DecidableEq, Repr

/-- The message numpy uses when `min`/`max` is taken over an empty
selection, as in `H[mask].min()` with an all-false mask. -/
def zeroSizeMsg : String :=
  "zero-size array to reduction operation minimum which has no identity"

/-- First component of an `Except` result when it is an error;
used to state error behaviour of concrete calls. -/
def resErr {α : Type} : Except PyErr α → Option PyErr
  | .error e => some e
  | .ok _ => none

/-- `ndarray.min()` semantics on a list of values: `none` on the empty
array (numpy raises there), otherwise the least element. -/
def listMin : List ℚ → Option ℚ
  | [] => none
  | q :: rest => some (rest.foldl min q)

/-- `ndarray.max()` semantics on a list of values. -/
def listMax : List ℚ → Option ℚ
  | [] => none
  | q :: rest => some (rest.foldl max q)

/-- `arr.min()` as the Python expression: raises `ValueError` on a
zero-size array, else returns the minimum. -/
def npMin (l : List ℚ) : Except PyErr ℚ :=
  match listMin l with
  | some m => .ok m
  | none => .error (.valueError zeroSizeMsg)

/-- `arr.max()` as the Python expression. -/
def npMax (l : List ℚ) : Except PyErr ℚ :=
  match listMax l with
  | some m => .ok m
  | none => .error (.valueError zeroSizeMsg)

/-- `np.linspace(start, stop, n)`: `n` evenly spaced points from `start`
to `stop`, endpoints included (exact in `ℚ`). -/
def npLinspace (start stop : ℚ) (n : ℕ) : List ℚ :=
  if n = 0 then []
  else if n = 1 then [start]
  else (List.range n).map fun k : ℕ => start + (k : ℚ) * (stop - start) / ((n : ℚ) - 1)

/-- Elementwise combination of two 1-D numpy arrays under numpy's
broadcasting rule: equal lengths combine pointwise; a length-1 array is
stretched to the other's length; anything else raises `ValueError`. -/
def npBroadcast (op : ℚ → ℚ → ℚ) (a c : List ℚ) : Except PyErr (List ℚ) :=
  if a.length = c.length then .ok (List.zipWith op a c)
  else
    match a, c with
    | [x], l => .ok (l.map (op x))
    | l, [z] => .ok (l.map (fun w => op w z))
    | _, _ => .error (.valueError "operands could not be broadcast together")

/-- The per-axis binning interval used by `np.histogram2d`: the explicit
`range` entry if given (rejecting an inverted range as numpy does), else
the data extent, with numpy's defaults `(0, 1)` for empty data and the
half-unit expansion of a degenerate single-point extent. -/
def edgeRange (data : List ℚ) (r : Option (ℚ × ℚ)) : Except PyErr (ℚ × ℚ) :=
  match r with
  | some (a, c) =>
    if a ≤ c then
      if a = c then .ok (a - 1/2, c + 1/2) else .ok (a, c)
    else .error (.valueError "max must be larger than min in range parameter.")
  | none =>
    match data with
    | [] => .ok (0, 1)
    | q :: rest =>
      let f := rest.foldl min q
      let l := rest.foldl max q
      if f = l then .ok (f - 1/2, l + 1/2) else .ok (f, l)

/-- Floor of a rational, computed with integer floor division so that it
reduces in the kernel. -/
def ratFloor (q : ℚ) : ℤ := Int.fdiv q.num (q.den : ℤ)

/-- Bin assignment of `np.histogram2d` along one axis with `b` equal bins
on `[first, last]`: values outside the interval are dropped, the right
edge belongs to the last bin, and otherwise value `v` lands in bin
`⌊(v - first)·b/(last - first)⌋` (exact-arithmetic form of searchsorted
on the `linspace` edges). -/
def binIndex (first last : ℚ) (b : ℕ) (v : ℚ) : Option ℕ :=
  if first ≤ v ∧ v ≤ last then
    some (min (b - 1) (ratFloor ((v - first) * (b : ℚ) / (last - first))).toNat)
  else none

/-- A `b × b` histogram grid (`H[i][j]`, `i` the x-bin, `j` the y-bin). -/
abbrev Grid (b : ℕ) := Fin b → Fin b → ℚ

/-- A grid whose cells may be non-finite (`none`). -/
abbrev OptGrid (b : ℕ) := Fin b → Fin b → Option ℚ

/-- `np.histogram2d(x, y, bins=b, range=rng)`: counts of samples per
`b × b` cell.  `bins = 0` is rejected as numpy rejects a non-positive
integer bin count.  Counts are returned as (rational) floats. -/
def histogram2d (x y : List ℚ) (b : ℕ) (rng : Option ((ℚ × ℚ) × (ℚ × ℚ))) :
    Except PyErr (Grid b) :=
  if b = 0 then .error (.valueError "bins must be positive, when an integer")
  else
    match edgeRange x (rng.map Prod.fst), edgeRange y (rng.map Prod.snd) with
    | .ok (xf, xl), .ok (yf, yl) =>
      .ok fun i j =>
        (((x.zip y).countP fun p =>
          (binIndex xf xl b p.1 == some i.val) && (binIndex yf yl b p.2 == some j.val) : ℕ) : ℚ)
    | .error e, _ => .error e
    | _, .error e => .error e

/-- All cells of a grid as a list (row-major). -/
def gridList {b : ℕ} (H : Grid b) : List ℚ :=
  (List.finRange b).flatMap fun i => (List.finRange b).map (H i)

/-- All cells of an option-valued grid as a list (row-major). -/
def optGridList {b : ℕ} (H : OptGrid b) : List (Option ℚ) :=
  (List.finRange b).flatMap fun i => (List.finRange b).map (H i)

/-- `H.min()` on a grid; the `0` default is unreachable in `plot_heatmap`
because `histogram2d` rejects `bins = 0`. -/
def gridMin {b : ℕ} (H : Grid b) : ℚ := (listMin (gridList H)).getD 0

/-- `H.max()` on a grid. -/
def gridMax {b : ℕ} (H : Grid b) : ℚ := (listMax (gridList H)).getD 0

/-- Float division of a finite value by a possibly-zero finite mean:
division by zero yields a non-finite float (`inf`, `-inf` or `nan`,
all modelled as `none`), otherwise the exact quotient. -/
def pdiv (a m : ℚ) : Option ℚ := if m = 0 then none else some (a / m)

/-- `np.mean(H, axis=1)[i]`: the mean of row `i` of `H`. -/
def rowMean {b : ℕ} (H : Grid b) (i : Fin b) : ℚ :=
  ((List.finRange b).map (H i)).sum / (b : ℚ)

/-- `np.mean(H, axis=0)[j]`: the mean of column `j` of `H`. -/
def colMean {b : ℕ} (H : Grid b) (j : Fin b) : ℚ :=
  ((List.finRange b).map fun i => H i j).sum / (b : ℚ)

/-- The `avg` block of `plot_heatmap` (source lines 209–221).  The two
string tests are mutually exclusive, so the two sequential `if`
statements of the source collapse to this cascade.  In both branches the
source executes `H /= tmp_mean` where `tmp_mean` has shape `(bins,)`;
numpy broadcasting aligns `tmp_mean` with the *last* axis of `H`, so
cell `(i, j)` is divided by `tmp_mean[j]` in both branches — for
`avg='x'` that is the mean of row `j`, not of row `i`. -/
def applyAvg {b : ℕ} (avg : Option String) (H : Grid b) : OptGrid b :=
  match avg with
  | none => fun i j => some (H i j)
  | some s =>
    if s = "y" ∨ s = "Y" then fun i j => pdiv (H i j) (colMean H j)
    else if s = "x" ∨ s = "X" then fun i j => pdiv (H i j) (rowMean H j)
    else fun i j => some (H i j)

/-- The finite cells of a possibly-degenerate grid: `H[mask]` for
`mask = np.isfinite(H)`. -/
def finiteList {b : ℕ} (H : OptGrid b) : List ℚ := (optGridList H).filterMap id

/-- The block `mask = np.isfinite(H); H[~mask] = H[mask].min()` (source
lines 223–226): replace every non-finite cell by the least finite cell;
raises numpy's zero-size `ValueError` when no cell is finite. -/
def fixNonfinite {b : ℕ} (H : OptGrid b) : Except PyErr (Grid b) :=
  match listMin (finiteList H) with
  | some m => .ok fun i j => (H i j).getD m
  | none => .error (.valueError zeroSizeMsg)

/-- The non-zero cells of a grid: `H[~mask]` for `mask = (H == 0)`. -/
def nonzeroList {b : ℕ} (H : Grid b) : List ℚ :=
  (gridList H).filter fun q => q != 0

/-- The block `mask = (H == 0); H[mask] = H[~mask].min()` (source lines
236–238 and 241–243): replace every zero cell by the least non-zero
cell; raises numpy's zero-size `ValueError` when every cell is zero. -/
def fixZeros {b : ℕ} (H : Grid b) : Except PyErr (Grid b) :=
  match listMin (nonzeroList H) with
  | some m => .ok fun i j => if H i j = 0 then m else H i j
  | none => .error (.valueError zeroSizeMsg)

/-- The normalization object finally passed to `imshow`: either the
user's `norm` argument forwarded untouched (`str`), a linear
`Normalize(vmin, vmax)`, or a `LogNorm(vmin, vmax)`. -/
inductive NormOut where
  | str (s : Option String)
  | linear (vmin vmax : ℚ)
  | log (vmin vmax : ℚ)
deriving DecidableEq, Repr

/-- The colorbar-configuration block of `plot_heatmap` (source lines
228–244), returning the histogram (possibly zero-substituted) and the
normalization handed to `imshow`.  The first source `if` replaces `norm`
by a `Normalize` object, so the later `norm == 'log'` tests only fire on
the original string value; the three branches are therefore exclusive. -/
def normStep {b : ℕ} (norm : Option String) (vmin vmax : Option ℚ) (H : Grid b) :
    Except PyErr (Grid b × NormOut) :=
  match vmin, vmax with
  | some a, some c =>
    if norm = none then .ok (H, .linear a c)
    else if norm = some "log" then
      match fixZeros H with
      | .ok H2 => .ok (H2, .log a c)
      | .error e => .error e
    else .ok (H, .str norm)
  | _, _ =>
    if norm = some "log" then
      match fixZeros H with
      | .ok H2 => .ok (H2, .log (gridMin H2) (gridMax H2))
      | .error e => .error e
    else .ok (H, .str norm)

/-- The display-extent block of `plot_heatmap` (source lines 247–259):
`hist_range` verbatim when given, else the data extent. -/
def extentStep (x y : List ℚ) (rng : Option ((ℚ × ℚ) × (ℚ × ℚ))) :
    Except PyErr (ℚ × ℚ × ℚ × ℚ) :=
  match rng with
  | some ((a, c), (d, e)) => .ok (a, c, d, e)
  | none =>
    match npMin x, npMax x, npMin y, npMax y with
    | .ok xmn, .ok xmx, .ok ymn, .ok ymx => .ok (xmn, xmx, ymn, ymx)
    | .error e, _, _, _ => .error e
    | _, .error e, _, _ => .error e
    | _, _, .error e, _ => .error e
    | _, _, _, .error e => .error e

/-- The final `ax.set_xlim(x.min(), x.max()); ax.set_ylim(y.min(),
y.max())` of `plot_heatmap` (source lines 282–283). -/
def limsStep (x y : List ℚ) : Except PyErr ((ℚ × ℚ) × (ℚ × ℚ)) :=
  match npMin x, npMax x, npMin y, npMax y with
  | .ok xmn, .ok xmx, .ok ymn, .ok ymx => .ok ((xmn, xmx), (ymn, ymx))
  | .error e, _, _, _ => .error e
  | _, .error e, _, _ => .error e
  | _, _, .error e, _ => .error e
  | _, _, _, .error e => .error e

/-- The labels-defaulting line of `plot_heatmap` (source lines 190–192). -/
def normalizeLabels (labels : List String) : List String :=
  if labels = [] ∨ labels.length ≠ 3 then ["x axis", "y axis", "Number"] else labels

/-- Everything `plot_heatmap` computes and hands to the rendering
library: the labels used, the raw histogram `Hraw`, the averaged grid
`Havg`, the non-finite-substituted grid `Hfix`, the grid `Himg` whose
transpose `image` is given to `imshow` together with `norm` and
`extent`, and the final axis limits `xlim`/`ylim`. -/
structure HeatmapResult (b : ℕ) where
  labels : List String
  Hraw : Grid b
  Havg : OptGrid b
  Hfix : Grid b
  Himg : Grid b
  norm : NormOut
  extent : ℚ × ℚ × ℚ × ℚ
  image : Grid b
  xlim : ℚ × ℚ
  ylim : ℚ × ℚ

/-- `plot_heatmap(x, y, labels, bins, avg, cm, norm, vmin, vmax,
hist_range, ...)` (source lines 146–287).  The colormap, the axis/figure
pair and the colorbar location only select rendering objects and are not
part of the data model; the `assert` pairing ax with fig concerns only
those objects and is independent of the claims below.  Stages appear in
source order, so the first failing numpy call decides the error. -/
def plot_heatmap (x y : List ℚ) (labels : List String) (b : ℕ) (avg : Option String)
    (norm : Option String) (vmin vmax : Option ℚ) (rng : Option ((ℚ × ℚ) × (ℚ × ℚ))) :
    Except PyErr (HeatmapResult b) :=
  if x.length = y.length then
    match histogram2d x y b rng with
    | .error e => .error e
    | .ok Hraw =>
      match fixNonfinite (applyAvg avg Hraw) with
      | .error e => .error e
      | .ok Hfix =>
        match normStep norm vmin vmax Hfix with
        | .error e => .error e
        | .ok pr =>
          match extentStep x y rng with
          | .error e => .error e
          | .ok ext =>
            match limsStep x y with
            | .error e => .error e
            | .ok lims =>
              .ok ⟨normalizeLabels labels, Hraw, applyAvg avg Hraw, Hfix, pr.1, pr.2, ext,
                   fun i j => pr.1 j i, lims.1, lims.2⟩
  else .error (.assertionError "x and y must have the same length.")

/-- The arguments `plot_polar_heatmap` passes to `plot_polar_contour`:
the raw histogram as the value grid, and the reconstructed angle and
radius display axes. -/
structure PolarArgs (b : ℕ) where
  heatmap : Grid b
  angles : List ℚ
  radius : List ℚ

/-- `plot_polar_heatmap(radius, theta, bins, ...)` (source lines
85–144).  `C` and `S` abstract the float functions
`t ↦ np.cos(t·π/180)` and `t ↦ np.sin(t·π/180)` (exact trigonometry is
not rational; every theorem below holds for all `C`, `S`).  The
coordinate mapping `x = radius*np.cos(theta*conv)` runs *before* the
length `assert`, so mismatched lengths surface as numpy broadcast
errors — or are silently broadcast when one array has length 1, after
which `len(x) == len(y)` always holds. -/
def plot_polar_heatmap (C S : ℚ → ℚ) (radius theta : List ℚ) (b : ℕ) :
    Except PyErr (PolarArgs b) :=
  match npBroadcast (fun r t => r * C t) radius theta with
  | .error e => .error e
  | .ok x =>
    match npBroadcast (fun r t => r * S t) radius theta with
    | .error e => .error e
    | .ok y =>
      if x.length = y.length then
        match histogram2d x y b none with
        | .error e => .error e
        | .ok heatmap =>
          match npMin theta, npMax theta, npMin radius, npMax radius with
          | .ok tmn, .ok tmx, .ok rmn, .ok rmx =>
            .ok ⟨heatmap, npLinspace tmn tmx b, npLinspace rmn rmx b⟩
          | .error e, _, _, _ => .error e
          | _, .error e, _, _ => .error e
          | _, _, .error e, _ => .error e
          | _, _, _, .error e => .error e
      else .error (.assertionError "x and y must have the same length.")

instance {ε α : Type} [DecidableEq ε] [DecidableEq α] : DecidableEq (Except ε α) :=
  fun a c =>
    match a, c with
    | .ok u, .ok v =>
      if h : u = v then isTrue (by rw [h]) else isFalse (fun he => by cases he; exact h rfl)
    | .error u, .error v =>
      if h : u = v then isTrue (by rw [h]) else isFalse (fun he => by cases he; exact h rfl)
    | .ok _, .error _ => isFalse (fun he => by cases he)
    | .error _, .ok _ => isFalse (fun he => by cases he)

instance {b : ℕ} : DecidableEq (HeatmapResult b) :=
  fun r s =>
    if h : r.labels = s.labels ∧ r.Hraw = s.Hraw ∧ r.Havg = s.Havg ∧ r.Hfix = s.Hfix ∧
        r.Himg = s.Himg ∧ r.norm = s.norm ∧ r.extent = s.extent ∧ r.image = s.image ∧
        r.xlim = s.xlim ∧ r.ylim = s.ylim then
      isTrue (by
        obtain ⟨h1, h2, h3, h4, h5, h6, h7, h8, h9, h10⟩ := h
        cases r; cases s; simp_all)
    else
      isFalse fun he => h (by cases he; exact ⟨rfl, rfl, rfl, rfl, rfl, rfl, rfl, rfl, rfl, rfl⟩)

instance {b : ℕ} : DecidableEq (PolarArgs b) :=
  fun r s =>
    if h : r.heatmap = s.heatmap ∧ r.angles = s.angles ∧ r.radius = s.radius then
      isTrue (by obtain ⟨h1, h2, h3⟩ := h; cases r; cases s; simp_all)
    else
      isFalse fun he => h (by cases he; exact ⟨rfl, rfl, rfl⟩)

/-- A left fold of `min` stays in the list (together with the seed). -/
theorem foldl_min_mem (rest : List ℚ) (q : ℚ) : rest.foldl min q ∈ q :: rest := by
  induction rest generalizing q with
  | nil => simp
  | cons a t ih =>
    simp only [List.foldl_cons]
    rcases min_choice q a with hm | hm <;> rw [hm]
    · rcases List.mem_cons.mp (ih q) with h' | h'
      · exact List.mem_cons.mpr (Or.inl h')
      · exact List.mem_cons.mpr (Or.inr (List.mem_cons_of_mem a h'))
    · rcases List.mem_cons.mp (ih a) with h' | h'
      · exact List.mem_cons.mpr (Or.inr (List.mem_cons.mpr (Or.inl h')))
      · exact List.mem_cons.mpr (Or.inr (List.mem_cons_of_mem a h'))

/-- A left fold of `min` is a lower bound of the seed and the list. -/
theorem foldl_min_le (rest : List ℚ) (q : ℚ) : ∀ a ∈ q :: rest, rest.foldl min q ≤ a := by
  induction rest generalizing q with
  | nil =>
    intro a ha
    rw [List.mem_singleton] at ha
    subst ha
    exact le_refl _
  | cons c t ih =>
    intro a ha
    have h := ih (min q c)
    simp only [List.foldl_cons]
    rcases List.mem_cons.mp ha with h' | h'
    · rw [h']
      exact le_trans (h (min q c) (List.mem_cons_self _ _)) (min_le_left _ _)
    · rcases List.mem_cons.mp h' with h'' | h''
      · rw [h'']
        exact le_trans (h (min q c) (List.mem_cons_self _ _)) (min_le_right _ _)
      · exact h a (List.mem_cons_of_mem _ h'')

/-- A left fold of `max` stays in the list (together with the seed). -/
theorem foldl_max_mem (rest : List ℚ) (q : ℚ) : rest.foldl max q ∈ q :: rest := by
  induction rest generalizing q with
  | nil => simp
  | cons a t ih =>
    simp only [List.foldl_cons]
    rcases max_choice q a with hm | hm <;> rw [hm]
    · rcases List.mem_cons.mp (ih q) with h' | h'
      · exact List.mem_cons.mpr (Or.inl h')
      · exact List.mem_cons.mpr (Or.inr (List.mem_cons_of_mem a h'))
    · rcases List.mem_cons.mp (ih a) with h' | h'
      · exact List.mem_cons.mpr (Or.inr (List.mem_cons.mpr (Or.inl h')))
      · exact List.mem_cons.mpr (Or.inr (List.mem_cons_of_mem a h'))

theorem listMin_mem {l : List ℚ} {m : ℚ} (h : listMin l = some m) : m ∈ l := by
  cases l with
  | nil => simp [listMin] at h
  | cons q rest =>
    simp only [listMin, Option.some.injEq] at h
    exact h ▸ foldl_min_mem rest q

theorem listMin_le {l : List ℚ} {m : ℚ} (h : listMin l = some m) : ∀ a ∈ l, m ≤ a := by
  cases l with
  | nil => simp [listMin] at h
  | cons q rest =>
    simp only [listMin, Option.some.injEq] at h
    exact h ▸ foldl_min_le rest q

theorem listMax_mem {l : List ℚ} {m : ℚ} (h : listMax l = some m) : m ∈ l := by
  cases l with
  | nil => simp [listMax] at h
  | cons q rest =>
    simp only [listMax, Option.some.injEq] at h
    exact h ▸ foldl_max_mem rest q

theorem listMin_isSome_of_ne_nil {l : List ℚ} (h : l ≠ []) : ∃ m, listMin l = some m := by
  cases l with
  | nil => exact absurd rfl h
  | cons q rest => exact ⟨rest.foldl min q, rfl⟩

/-- Membership in the cell list of a grid. -/
theorem mem_gridList {b : ℕ} {H : Grid b} {q : ℚ} :
    q ∈ gridList H ↔ ∃ i j, H i j = q := by
  simp [gridList, List.mem_flatMap, List.mem_map, List.mem_finRange, eq_comm]

/-- Membership in the cell list of an option grid. -/
theorem mem_optGridList {b : ℕ} {H : OptGrid b} {o : Option ℚ} :
    o ∈ optGridList H ↔ ∃ i j, H i j = o := by
  simp [optGridList, List.mem_flatMap, List.mem_map, List.mem_finRange, eq_comm]

/-- Membership in the finite-cell list of an option grid. -/
theorem mem_finiteList {b : ℕ} {H : OptGrid b} {q : ℚ} :
    q ∈ finiteList H ↔ ∃ i j, H i j = some q := by
  constructor
  · intro h
    obtain ⟨o, ho, hid⟩ := List.mem_filterMap.mp h
    obtain ⟨i, j, hij⟩ := mem_optGridList.mp ho
    exact ⟨i, j, by rw [hij]; exact hid⟩
  · rintro ⟨i, j, hij⟩
    exact List.mem_filterMap.mpr ⟨some q, mem_optGridList.mpr ⟨i, j, hij⟩, rfl⟩

/-- Membership in the non-zero-cell list of a grid. -/
theorem mem_nonzeroList {b : ℕ} {H : Grid b} {q : ℚ} :
    q ∈ nonzeroList H ↔ (∃ i j, H i j = q) ∧ q ≠ 0 := by
  simp [nonzeroList, List.mem_filter, mem_gridList, bne_iff_ne]

/-- The cell list of a grid over at least one bin is nonempty. -/
theorem gridList_ne_nil {b : ℕ} (hb : 0 < b) (H : Grid b) : gridList H ≠ [] := by
  intro h
  have : H ⟨0, hb⟩ ⟨0, hb⟩ ∈ gridList H := mem_gridList.mpr ⟨_, _, rfl⟩
  rw [h] at this
  exact List.not_mem_nil _ this

/-- A successful `histogram2d` call had a positive bin count. -/
theorem histogram2d_ok_bpos {x y : List ℚ} {b : ℕ} {rng} {H : Grid b}
    (h : histogram2d x y b rng = .ok H) : 0 < b := by
  by_contra hb
  have hb0 : b = 0 := by omega
  subst hb0
  simp [histogram2d] at h

/-- Histogram cells are counts, hence non-negative. -/
theorem histogram2d_ok_nonneg {x y : List ℚ} {b : ℕ} {rng} {H : Grid b}
    (h : histogram2d x y b rng = .ok H) : ∀ i j, 0 ≤ H i j := by
  intro i j
  unfold histogram2d at h
  split at h
  · exact absurd h (by simp)
  · split at h
    · rw [Except.ok.injEq] at h
      subst h
      exact Nat.cast_nonneg _
    · exact absurd h (by simp)
    · exact absurd h (by simp)

/-- Row means of a non-negative grid are non-negative. -/
theorem rowMean_nonneg {b : ℕ} {H : Grid b} (hH : ∀ i j, 0 ≤ H i j) (i : Fin b) :
    0 ≤ rowMean H i := by
  apply div_nonneg _ (Nat.cast_nonneg b)
  apply List.sum_nonneg
  intro a ha
  obtain ⟨j, _, hj⟩ := List.mem_map.mp ha
  exact hj ▸ hH i j

/-- Column means of a non-negative grid are non-negative. -/
theorem colMean_nonneg {b : ℕ} {H : Grid b} (hH : ∀ i j, 0 ≤ H i j) (j : Fin b) :
    0 ≤ colMean H j := by
  apply div_nonneg _ (Nat.cast_nonneg b)
  apply List.sum_nonneg
  intro a ha
  obtain ⟨i, _, hi⟩ := List.mem_map.mp ha
  exact hi ▸ hH i j

/-- Finite cells surviving the averaging step of a non-negative
histogram are non-negative. -/
theorem applyAvg_nonneg {b : ℕ} {avg : Option String} {H : Grid b}
    (hH : ∀ i j, 0 ≤ H i j) :
    ∀ i j q, applyAvg avg H i j = some q → 0 ≤ q := by
  intro i j q hq
  unfold applyAvg at hq
  have hdiv : ∀ a m : ℚ, 0 ≤ a → 0 ≤ m → pdiv a m = some q → 0 ≤ q := by
    intro a m ha hm hp
    unfold pdiv at hp
    split at hp
    · exact absurd hp (by simp)
    · rw [Option.some.injEq] at hp
      exact hp ▸ div_nonneg ha hm
  match avg with
  | none =>
    simp only [Option.some.injEq] at hq
    exact hq ▸ hH i j
  | some s =>
    simp only at hq
    split at hq
    · exact hdiv _ _ (hH i j) (colMean_nonneg hH j) hq
    · split at hq
      · exact hdiv _ _ (hH i j) (rowMean_nonneg hH j) hq
      · simp only [Option.some.injEq] at hq
        exact hq ▸ hH i j

/-- After the non-finite substitution every cell is non-negative,
provided every finite input cell was. -/
theorem fixNonfinite_ok_nonneg {b : ℕ} {H : OptGrid b} {H2 : Grid b}
    (hH : ∀ i j q, H i j = some q → 0 ≤ q)
    (h : fixNonfinite H = .ok H2) : ∀ i j, 0 ≤ H2 i j := by
  intro i j
  unfold fixNonfinite at h
  split at h
  case _ m hm =>
    rw [Except.ok.injEq] at h
    subst h
    obtain ⟨i', j', hij⟩ := mem_finiteList.mp (listMin_mem hm)
    cases hcell : H i j with
    | none => simpa [hcell] using hH i' j' m hij
    | some q => simpa [hcell] using hH i j q hcell
  · exact absurd h (by simp)

/-- After the zero substitution every cell of a non-negative grid is
strictly positive. -/
theorem fixZeros_ok_pos {b : ℕ} {H H2 : Grid b}
    (hH : ∀ i j, 0 ≤ H i j)
    (h : fixZeros H = .ok H2) : ∀ i j, 0 < H2 i j := by
  intro i j
  unfold fixZeros at h
  split at h
  case _ m hm =>
    rw [Except.ok.injEq] at h
    subst h
    obtain ⟨⟨i', j', hij⟩, hne⟩ := mem_nonzeroList.mp (listMin_mem hm)
    have hmpos : 0 < m := lt_of_le_of_ne (hij ▸ hH i' j') (Ne.symm hne)
    by_cases hz : H i j = 0
    · simpa [hz] using hmpos
    · simpa [hz] using lt_of_le_of_ne (hH i j) (Ne.symm hz)
  · exact absurd h (by simp)

/-- Inversion of a successful `plot_heatmap` call into its pipeline
stages (in source order) and the returned record. -/
theorem plot_heatmap_ok_parts {x y : List ℚ} {labels : List String} {b : ℕ}
    {avg norm : Option String} {vmin vmax : Option ℚ} {rng} {r : HeatmapResult b}
    (h : plot_heatmap x y labels b avg norm vmin vmax rng = .ok r) :
    ∃ (Hraw Hfix Himg : Grid b) (n : NormOut) (ext : ℚ × ℚ × ℚ × ℚ)
      (lims : (ℚ × ℚ) × (ℚ × ℚ)),
      x.length = y.length ∧
      histogram2d x y b rng = .ok Hraw ∧
      fixNonfinite (applyAvg avg Hraw) = .ok Hfix ∧
      normStep norm vmin vmax Hfix = .ok (Himg, n) ∧
      extentStep x y rng = .ok ext ∧
      limsStep x y = .ok lims ∧
      r = ⟨normalizeLabels labels, Hraw, applyAvg avg Hraw, Hfix, Himg, n, ext,
           fun i j => Himg j i, lims.1, lims.2⟩ := by
  unfold plot_heatmap at h
  split at h
  case isTrue hlen =>
    split at h
    · exact absurd h (by simp)
    case _ Hraw hraw =>
      split at h
      · exact absurd h (by simp)
      case _ Hfix hfix =>
        split at h
        · exact absurd h (by simp)
        case _ pr hnorm =>
          split at h
          · exact absurd h (by simp)
          case _ ext hext =>
            split at h
            · exact absurd h (by simp)
            case _ lims hlims =>
              rw [Except.ok.injEq] at h
              exact ⟨Hraw, Hfix, pr.1, pr.2, ext, lims, hlen, hraw, hfix,
                by rw [Prod.mk.eta]; exact hnorm, hext, hlims, h.symm⟩
  case isFalse => exact absurd h (by simp)

/-- Inversion of a successful `limsStep`. -/
theorem limsStep_ok {x y : List ℚ} {lims : (ℚ × ℚ) × (ℚ × ℚ)}
    (h : limsStep x y = .ok lims) :
    npMin x = .ok lims.1.1 ∧ npMax x = .ok lims.1.2 ∧
    npMin y = .ok lims.2.1 ∧ npMax y = .ok lims.2.2 := by
  unfold limsStep at h
  split at h
  · rw [Except.ok.injEq] at h
    subst h
    simp_all
  all_goals exact absurd h (by simp)

/-- Inversion of a successful `extentStep` with no explicit range. -/
theorem extentStep_none_ok {x y : List ℚ} {ext : ℚ × ℚ × ℚ × ℚ}
    (h : extentStep x y none = .ok ext) :
    npMin x = .ok ext.1 ∧ npMax x = .ok ext.2.1 ∧
    npMin y = .ok ext.2.2.1 ∧ npMax y = .ok ext.2.2.2 := by
  obtain ⟨a, c, d, e⟩ := ext
  unfold extentStep at h
  rcases hx1 : npMin x with e1 | xmn <;> rw [hx1] at h <;>
    rcases hx2 : npMax x with e2 | xmx <;> rw [hx2] at h <;>
    rcases hy1 : npMin y with e3 | ymn <;> rw [hy1] at h <;>
    rcases hy2 : npMax y with e4 | ymx <;> rw [hy2] at h <;>
    simp at h
  obtain ⟨h1, h2, h3, h4⟩ := h
  subst h1; subst h2; subst h3; subst h4
  exact ⟨rfl, rfl, rfl, rfl⟩

/-- Inversion of a successful `normStep` in log mode when the caller did
not supply both bounds: the grid is zero-substituted and the bounds are
its minimum and maximum. -/
theorem normStep_log_derived {b : ℕ} {vmin vmax : Option ℚ} {H Himg : Grid b} {n : NormOut}
    (hb : ¬(vmin.isSome ∧ vmax.isSome))
    (h : normStep (some "log") vmin vmax H = .ok (Himg, n)) :
    fixZeros H = .ok Himg ∧ n = .log (gridMin Himg) (gridMax Himg) := by
  have hred : (match fixZeros H with
      | .ok H2 => (.ok (H2, NormOut.log (gridMin H2) (gridMax H2)) :
          Except PyErr (Grid b × NormOut))
      | .error e => .error e) = .ok (Himg, n) := by
    rcases vmin with _ | a
    · rcases vmax with _ | c
      · simpa [normStep] using h
      · simpa [normStep] using h
    · rcases vmax with _ | c
      · simpa [normStep] using h
      · exact absurd (⟨rfl, rfl⟩ :
          (Option.some a).isSome = true ∧ (Option.some c).isSome = true) hb
  split at hred
  case _ H2 hfz =>
    rw [Except.ok.injEq, Prod.mk.injEq] at hred
    obtain ⟨h1, h2⟩ := hred
    subst h1
    exact ⟨hfz, h2.symm⟩
  case _ => exact absurd hred (by simp)

theorem listMax_isSome_of_ne_nil {l : List ℚ} (h : l ≠ []) : ∃ m, listMax l = some m := by
  cases l with
  | nil => exact absurd rfl h
  | cons q rest => exact ⟨rest.foldl max q, rfl⟩

/-- On a grid of strictly positive cells (with at least one bin),
`H.min()` is strictly positive and at most `H.max()`. -/
theorem gridMin_pos_of_pos {b : ℕ} (hb : 0 < b) {H : Grid b} (hp : ∀ i j, 0 < H i j) :
    0 < gridMin H ∧ gridMin H ≤ gridMax H := by
  have hne := gridList_ne_nil hb H
  obtain ⟨m, hm⟩ := listMin_isSome_of_ne_nil hne
  obtain ⟨M, hM⟩ := listMax_isSome_of_ne_nil hne
  rw [gridMin, gridMax, hm, hM]
  simp only [Option.getD_some]
  constructor
  · obtain ⟨i, j, hij⟩ := mem_gridList.mp (listMin_mem hm)
    exact hij ▸ hp i j
  · exact listMin_le hm M (listMax_mem hM)

theorem npLinspace_length (a c : ℚ) (n : ℕ) : (npLinspace a c n).length = n := by
  unfold npLinspace
  split
  · simp_all
  · split
    · simp_all
    · simp

theorem npLinspace_head {a c : ℚ} {n : ℕ} (h : 1 ≤ n) :
    (npLinspace a c n).head? = some a := by
  unfold npLinspace
  rw [if_neg (by omega)]
  split
  · rfl
  case isFalse h2 =>
    have hn : ∃ m, n = m + 2 := ⟨n - 2, by omega⟩
    obtain ⟨m, hm⟩ := hn
    subst hm
    rw [List.range_succ_eq_map]
    simp

theorem npLinspace_getLast {a c : ℚ} {n : ℕ} (h : 2 ≤ n) :
    (npLinspace a c n).getLast? = some c := by
  unfold npLinspace
  rw [if_neg (by omega), if_neg (by omega)]
  have hn : n = (n - 1) + 1 := by omega
  rw [hn, List.range_succ, List.map_append]
  rw [List.getLast?_append_of_ne_nil _ (by simp)]
  simp only [List.map_cons, List.map_nil, List.getLast?_singleton, Option.some.injEq]
  have hne : ((n : ℚ) - 1) ≠ 0 := by
    have : (2 : ℚ) ≤ (n : ℚ) := by exact_mod_cast h
    intro hz
    nlinarith
  have hcast : ((n - 1 : ℕ) : ℚ) = (n : ℚ) - 1 := by
    have : (1 : ℕ) ≤ n := by omega
    push_cast [Nat.cast_sub this]
    ring
  rw [← hn, hcast]
  field_simp

/-- Inversion of a successful `plot_polar_heatmap` call. -/
theorem plot_polar_heatmap_ok_parts {C S : ℚ → ℚ} {radius theta : List ℚ} {b : ℕ}
    {r : PolarArgs b} (h : plot_polar_heatmap C S radius theta b = .ok r) :
    ∃ (x y : List ℚ) (heatmap : Grid b) (tmn tmx rmn rmx : ℚ),
      npBroadcast (fun rr t => rr * C t) radius theta = .ok x ∧
      npBroadcast (fun rr t => rr * S t) radius theta = .ok y ∧
      x.length = y.length ∧
      histogram2d x y b none = .ok heatmap ∧
      npMin theta = .ok tmn ∧ npMax theta = .ok tmx ∧
      npMin radius = .ok rmn ∧ npMax radius = .ok rmx ∧
      r = ⟨heatmap, npLinspace tmn tmx b, npLinspace rmn rmx b⟩ := by
  unfold plot_polar_heatmap at h
  split at h
  · exact absurd h (by simp)
  case _ x hx =>
    split at h
    · exact absurd h (by simp)
    case _ y hy =>
      split at h
      case isTrue hlen =>
        split at h
        · exact absurd h (by simp)
        case _ heatmap hh =>
          rcases ht1 : npMin theta with e1 | tmn <;> rw [ht1] at h <;>
            rcases ht2 : npMax theta with e2 | tmx <;> rw [ht2] at h <;>
            rcases hr1 : npMin radius with e3 | rmn <;> rw [hr1] at h <;>
            rcases hr2 : npMax radius with e4 | rmx <;> rw [hr2] at h <;>
            simp at h
          exact ⟨x, y, heatmap, tmn, tmx, rmn, rmx, hx, hy, hlen, hh,
            rfl, rfl, rfl, rfl, h.symm⟩
      case isFalse => exact absurd h (by simp)

/-- The `Hraw` field of a successful call (else `none`). -/
def okHraw {b : ℕ} : Except PyErr (HeatmapResult b) → Option (Grid b)
  | .ok r => some r.Hraw
  | .error _ => none

/-- The `Havg` field of a successful call (else `none`). -/
def okHavg {b : ℕ} : Except PyErr (HeatmapResult b) → Option (OptGrid b)
  | .ok r => some r.Havg
  | .error _ => none

/-- The `norm` field of a successful call (else `none`). -/
def okNorm {b : ℕ} : Except PyErr (HeatmapResult b) → Option NormOut
  | .ok r => some r.norm
  | .error _ => none

/-- The `extent` field of a successful call (else `none`). -/
def okExtent {b : ℕ} : Except PyErr (HeatmapResult b) → Option (ℚ × ℚ × ℚ × ℚ)
  | .ok r => some r.extent
  | .error _ => none

/-- The `xlim` field of a successful call (else `none`). -/
def okXlim {b : ℕ} : Except PyErr (HeatmapResult b) → Option (ℚ × ℚ)
  | .ok r => some r.xlim
  | .error _ => none

/-- The `ylim` field of a successful call (else `none`). -/
def okYlim {b : ℕ} : Except PyErr (HeatmapResult b) → Option (ℚ × ℚ)
  | .ok r => some r.ylim
  | .error _ => none

/-- Row-major cell list of the `Hraw` field of a successful call. -/
def okHrawList {b : ℕ} (e : Except PyErr (HeatmapResult b)) : Option (List ℚ) :=
  (okHraw e).map gridList

/-- Row-major cell list of the `Havg` field of a successful call. -/
def okHavgList {b : ℕ} (e : Except PyErr (HeatmapResult b)) : Option (List (Option ℚ)) :=
  (okHavg e).map optGridList

/-- Modelled from the spec's words for C1: `avg='x'` divides row-wise,
cell `(i, j)` by the mean of row `i`. -/
def specAvgX {b : ℕ} (H : Grid b) : OptGrid b := fun i j => pdiv (H i j) (rowMean H i)

/-- Modelled from the spec's words for C1: `avg='y'` divides
column-wise, cell `(i, j)` by the mean of column `j`. -/
def specAvgY {b : ℕ} (H : Grid b) : OptGrid b := fun i j => pdiv (H i j) (colMean H j)

/-- What the broadcast `H /= np.mean(H, axis=1)` actually computes for
`avg='x'`: cell `(i, j)` divided by the mean of row `j`. -/
def broadcastAvgX {b : ℕ} (H : Grid b) : OptGrid b := fun i j => pdiv (H i j) (rowMean H j)

/-- The polar→Cartesian mapping of `plot_polar_heatmap` (source lines
131–133) over exact reals: `conv = π/180`, `x = r·cos(θ·conv)`,
`y = r·sin(θ·conv)`. -/
def polarMapsTo (r θ x y : ℝ) : Prop :=
  x = r * Real.cos (θ * (Real.pi / 180)) ∧ y = r * Real.sin (θ * (Real.pi / 180))

/-- C8: for every radius sequence constantly `R ≥ 0` and every angle
sequence (degrees), each point of the Cartesian cloud computed by
`plot_polar_heatmap` via `x = r·cos(θ·π/180)`, `y = r·sin(θ·π/180)` lies
at distance exactly `R` from the origin. -/
theorem C8_theorem (R : ℝ) (thetas : List ℝ) (cloud : List (ℝ × ℝ))
    (hc : List.Forall₂ (fun t p => polarMapsTo R t p.1 p.2) thetas cloud)
    (hR : 0 ≤ R) : ∀ p ∈ cloud, Real.sqrt (p.1 ^ 2 + p.2 ^ 2) = R := by
  induction hc with
  | nil => intro p hp; cases hp
  | cons hhd _ ih =>
    intro p hp
    rcases List.mem_cons.mp hp with he | he
    · subst he
      obtain ⟨hx, hy⟩ := hhd
      rw [hx, hy]
      have hsq : ∀ u : ℝ, (R * Real.cos u) ^ 2 + (R * Real.sin u) ^ 2 = R ^ 2 := by
        intro u
        rw [mul_pow, mul_pow, ← mul_add, Real.cos_sq_add_sin_sq, mul_one]
      rw [hsq, Real.sqrt_sq hR]
    · exact ih p he

set_option maxHeartbeats 2000000 in
theorem C8_witness :
    Real.sqrt (((1 : ℝ) * Real.cos (0 * (Real.pi / 180))) ^ 2 +
      ((1 : ℝ) * Real.sin (0 * (Real.pi / 180))) ^ 2) = 1 := by
  have hc : List.Forall₂ (fun t p => polarMapsTo 1 t p.1 p.2) [(0 : ℝ)]
      [((1 : ℝ) * Real.cos (0 * (Real.pi / 180)), (1 : ℝ) * Real.sin (0 * (Real.pi / 180)))] :=
    List.Forall₂.cons ⟨rfl, rfl⟩ List.Forall₂.nil
  have h := C8_theorem 1 [(0 : ℝ)]
    [((1 : ℝ) * Real.cos (0 * (Real.pi / 180)), (1 : ℝ) * Real.sin (0 * (Real.pi / 180)))]
    hc zero_le_one
  exact h _ (List.mem_singleton.mpr rfl)

set_option maxHeartbeats 1000000 in
/-- Auxiliary computation for the C1 counterexample: the raw histogram
of the samples `x = [0,0,1]`, `y = [0,1,1]` with 2 bins is
`[[1,1],[0,1]]` (row-major cell list `[1,1,0,1]`). -/
theorem C1aux_raw :
    okHrawList (plot_heatmap [0, 0, 1] [0, 1, 1] [] 2 (some "x") none none none none)
      = some [1, 1, 0, 1] :=
  of_decide_eq_true (by with_unfolding_all rfl)

set_option maxHeartbeats 1000000 in
/-- Auxiliary computation for the C1 counterexample: the cell list of
the grid after the `avg='x'` division (row means are `1` and `1/2`, and
broadcasting divides cell `(i,j)` by the mean of row `j`). -/
theorem C1aux_avg :
    okHavgList (plot_heatmap [0, 0, 1] [0, 1, 1] [] 2 (some "x") none none none none)
      = some [some 1, some 2, some 0, some 2] :=
  of_decide_eq_true (by with_unfolding_all rfl)

set_option maxHeartbeats 1000000 in
/-- Auxiliary computation for the C1 counterexample: the cell list of
the row-wise division the claim asks for — cell `(0,1)` is
`1/(mean of row 0) = 1`, not `2`. -/
theorem C1aux_spec :
    optGridList (specAvgX (![![1, 1], ![0, 1]] : Grid 2))
      = [some 1, some 1, some 0, some 2] :=
  of_decide_eq_true (by with_unfolding_all rfl)

/-- C1, counterexample: with `avg='x'` and the histogram `[[1,1],[0,1]]`
(produced by `plot_heatmap` on `x = [0,0,1]`, `y = [0,1,1]`), the
averaged grid is *not* the row-wise division the claim states: cell
`(0,1)` of the code's output is `1/(1/2) = 2`, while the claim demands
`1/1 = 1`. -/
theorem C1_counterexample :
    okHrawList (plot_heatmap [0, 0, 1] [0, 1, 1] [] 2 (some "x") none none none none)
      = some [1, 1, 0, 1] ∧
    okHavgList (plot_heatmap [0, 0, 1] [0, 1, 1] [] 2 (some "x") none none none none)
      ≠ some (optGridList (specAvgX ![![1, 1], ![0, 1]])) := by
  refine ⟨C1aux_raw, ?_⟩
  rw [C1aux_avg, C1aux_spec]
  intro heq
  injection heq with h
  norm_num at h

/-- C1, amended: `avg='y'` divides cell `(i,j)` by the mean of column
`j` exactly as the claim states, but `avg='x'` — through numpy's
broadcasting of `np.mean(H, axis=1)` along the last axis — divides cell
`(i,j)` by the mean of row `j`, not of row `i`. -/
theorem C1_theorem {b : ℕ} (H : Grid b) :
    applyAvg (some "y") H = specAvgY H ∧ applyAvg (some "x") H = broadcastAvgX H := by
  constructor <;> rfl

set_option maxHeartbeats 2000000 in
/-- C9: any unrecognized non-null `avg` string leaves the whole call
identical to the un-averaged call — a silent no-op, no error. -/
theorem C9_theorem (s : String) (h1 : s ≠ "x") (h2 : s ≠ "X") (h3 : s ≠ "y") (h4 : s ≠ "Y")
    (x y : List ℚ) (labels : List String) (b : ℕ) (norm : Option String)
    (vmin vmax : Option ℚ) (rng : Option ((ℚ × ℚ) × (ℚ × ℚ))) :
    plot_heatmap x y labels b (some s) norm vmin vmax rng
      = plot_heatmap x y labels b none norm vmin vmax rng := by
  have ha : applyAvg (some s) = (applyAvg none : Grid b → OptGrid b) := by
    funext H
    simp [applyAvg, h1, h2, h3, h4]
  unfold plot_heatmap
  simp only [ha]

theorem C9_witness :
    plot_heatmap [0] [0] [] 1 (some "z") none none none none
      = plot_heatmap [0] [0] [] 1 none none none none none :=
  C9_theorem "z" (by decide) (by decide) (by decide) (by decide)
    [0] [0] [] 1 none none none none

set_option maxHeartbeats 2000000 in
/-- C10: a labels list of the wrong length (including `[]`) is silently
replaced by the defaults — the call is identical to one made with the
default labels — while a length-3 list is used as given. -/
theorem C10_theorem (x y : List ℚ) (labels : List String) (b : ℕ) (avg norm : Option String)
    (vmin vmax : Option ℚ) (rng : Option ((ℚ × ℚ) × (ℚ × ℚ))) :
    (labels.length ≠ 3 →
      plot_heatmap x y labels b avg norm vmin vmax rng
        = plot_heatmap x y ["x axis", "y axis", "Number"] b avg norm vmin vmax rng) ∧
    (labels.length = 3 → ∀ r, plot_heatmap x y labels b avg norm vmin vmax rng = .ok r →
      r.labels = labels) := by
  constructor
  · intro h
    have h1 : normalizeLabels labels = ["x axis", "y axis", "Number"] :=
      if_pos (Or.inr h)
    have h2 : normalizeLabels ["x axis", "y axis", "Number"]
        = ["x axis", "y axis", "Number"] := by
      rw [normalizeLabels, if_neg]
      rintro (he | hn)
      · simp at he
      · exact hn rfl
    unfold plot_heatmap
    simp only [h1, h2]
  · intro h3 r hok
    obtain ⟨Hraw, Hfix, Himg, n, ext, lims, hlen, hraw, hfix, hnorm, hext, hlims, hr⟩ :=
      plot_heatmap_ok_parts hok
    subst hr
    show normalizeLabels labels = labels
    rw [normalizeLabels, if_neg]
    rintro (he | hn)
    · rw [he] at h3
      simp at h3
    · exact hn h3

theorem C10_witness :
    plot_heatmap [0] [0] ["a"] 1 none none none none none
      = plot_heatmap [0] [0] ["x axis", "y axis", "Number"] 1 none none none none none ∧
    (⟨["p", "q", "r"], ![![1]], ![![some 1]], ![![1]], ![![1]], .str none, (0, 0, 0, 0),
      ![![1]], (0, 0), (0, 0)⟩ : HeatmapResult 1).labels = ["p", "q", "r"] := by
  have h : plot_heatmap [0] [0] ["p", "q", "r"] 1 none none none none none
      = .ok ⟨["p", "q", "r"], ![![1]], ![![some 1]], ![![1]], ![![1]], .str none, (0, 0, 0, 0),
        ![![1]], (0, 0), (0, 0)⟩ :=
    of_decide_eq_true (by with_unfolding_all rfl)
  exact ⟨(C10_theorem [0] [0] ["a"] 1 none none none none none).1 (by decide),
    (C10_theorem [0] [0] ["p", "q", "r"] 1 none none none none none).2 rfl _ h⟩

/-- A binary numpy ufunc on two 1-D arrays raises a broadcast error
exactly when the lengths differ and neither array has length 1. -/
theorem npBroadcast_error (op : ℚ → ℚ → ℚ) {a c : List ℚ} (h : a.length ≠ c.length)
    (ha : a.length ≠ 1) (hc : c.length ≠ 1) :
    npBroadcast op a c = .error (.valueError "operands could not be broadcast together") := by
  unfold npBroadcast
  rw [if_neg h]
  rcases a with _ | ⟨p, _ | ⟨p2, ptl⟩⟩ <;> rcases c with _ | ⟨u, _ | ⟨u2, utl⟩⟩ <;>
    first
      | rfl
      | exact absurd rfl h
      | exact absurd rfl ha
      | exact absurd rfl hc

/-- C3, amended: `plot_heatmap` always rejects mismatched lengths with
the descriptive `AssertionError`; `plot_polar_heatmap` computes
`radius*np.cos(theta*conv)` *before* its assert, so mismatched lengths
surface as a numpy broadcast `ValueError` when both lengths differ
from 1 — and produce no error at all when one of them is 1 (the array
is broadcast). -/
theorem C3_theorem :
    (∀ (x y : List ℚ) (labels : List String) (b : ℕ) (avg norm : Option String)
      (vmin vmax : Option ℚ) (rng : Option ((ℚ × ℚ) × (ℚ × ℚ))),
      x.length ≠ y.length →
      plot_heatmap x y labels b avg norm vmin vmax rng
        = .error (.assertionError "x and y must have the same length.")) ∧
    (∀ (C S : ℚ → ℚ) (radius theta : List ℚ) (b : ℕ),
      radius.length ≠ theta.length → radius.length ≠ 1 → theta.length ≠ 1 →
      plot_polar_heatmap C S radius theta b
        = .error (.valueError "operands could not be broadcast together")) := by
  constructor
  · intro x y labels b avg norm vmin vmax rng h
    unfold plot_heatmap
    rw [if_neg h]
  · intro C S radius theta b h h1 h2
    unfold plot_polar_heatmap
    rw [npBroadcast_error _ h h1 h2]

/-- C3, counterexample: `plot_polar_heatmap` with a length-1 radius
array and a length-3 angle array (mismatched lengths) raises no error:
numpy broadcasts the radius across the angles before the assert runs. -/
theorem C3_counterexample :
    List.length [(1 : ℚ)] ≠ List.length [(10 : ℚ), 20, 30] ∧
    resErr (plot_polar_heatmap id id [1] [10, 20, 30] 2) = none :=
  ⟨of_decide_eq_true (by with_unfolding_all rfl),
   of_decide_eq_true (by with_unfolding_all rfl)⟩

theorem C3_witness :
    List.length [(1 : ℚ)] ≠ List.length [(2 : ℚ), 3] ∧
    plot_heatmap [1] [2, 3] [] 2 none none none none none
      = .error (.assertionError "x and y must have the same length.") ∧
    plot_polar_heatmap id id [1, 2] [1, 2, 3] 2
      = .error (.valueError "operands could not be broadcast together") :=
  ⟨by decide,
   C3_theorem.1 [1] [2, 3] [] 2 none none none none none (by decide),
   C3_theorem.2 id id [1, 2] [1, 2, 3] 2 (by decide) (by decide) (by decide)⟩

/-- C2, amended: whenever at least one cell is finite, `fixNonfinite`
substitutes the least finite cell for every non-finite cell (finite
cells unchanged); whenever at least one cell is non-zero, `fixZeros`
substitutes the least non-zero cell for every zero cell.  With *no*
finite (resp. non-zero) cell the substitution step raises numpy's
zero-size `ValueError` instead — see the counterexample. -/
theorem C2_theorem {b : ℕ} (Hopt : OptGrid b) (H : Grid b) (mf mz : ℚ)
    (hmf : listMin (finiteList Hopt) = some mf)
    (hmz : listMin (nonzeroList H) = some mz) :
    (mf ∈ finiteList Hopt ∧ ∀ a ∈ finiteList Hopt, mf ≤ a) ∧
    fixNonfinite Hopt = .ok (fun i j => (Hopt i j).getD mf) ∧
    (mz ∈ nonzeroList H ∧ ∀ a ∈ nonzeroList H, mz ≤ a) ∧
    fixZeros H = .ok (fun i j => if H i j = 0 then mz else H i j) := by
  refine ⟨⟨listMin_mem hmf, listMin_le hmf⟩, ?_, ⟨listMin_mem hmz, listMin_le hmz⟩, ?_⟩
  · unfold fixNonfinite
    rw [hmf]
  · unfold fixZeros
    rw [hmz]

/-- C2, counterexample: a call whose histogram is entirely zero (all
samples excluded by `hist_range`) in log mode *does* fail: the zero
substitution takes the min of an empty selection and numpy raises a
`ValueError`, contradicting "never surfaced as an error". -/
theorem C2_counterexample :
    histogram2d [(5 : ℚ)] [5] 2 (some ((0, 1), (0, 1))) = .ok ![![0, 0], ![0, 0]] ∧
    resErr (plot_heatmap [(5 : ℚ)] [5] [] 2 none (some "log") none none (some ((0, 1), (0, 1))))
      = some (.valueError zeroSizeMsg) :=
  ⟨of_decide_eq_true (by with_unfolding_all rfl),
   of_decide_eq_true (by with_unfolding_all rfl)⟩

theorem C2_witness :
    listMin (finiteList (![![some 1, none], ![some 3, some 0]] : OptGrid 2)) = some 0 ∧
    listMin (nonzeroList (![![0, 2], ![3, 0]] : Grid 2)) = some 2 ∧
    ((0 ∈ finiteList (![![some 1, none], ![some 3, some 0]] : OptGrid 2) ∧
        ∀ a ∈ finiteList (![![some 1, none], ![some 3, some 0]] : OptGrid 2), 0 ≤ a) ∧
      fixNonfinite (![![some 1, none], ![some 3, some 0]] : OptGrid 2)
        = .ok (fun i j => ((![![some 1, none], ![some 3, some 0]] : OptGrid 2) i j).getD 0) ∧
      (2 ∈ nonzeroList (![![0, 2], ![3, 0]] : Grid 2) ∧
        ∀ a ∈ nonzeroList (![![0, 2], ![3, 0]] : Grid 2), 2 ≤ a) ∧
      fixZeros (![![0, 2], ![3, 0]] : Grid 2)
        = .ok (fun i j => if (![![0, 2], ![3, 0]] : Grid 2) i j = 0 then 2 else
            (![![0, 2], ![3, 0]] : Grid 2) i j)) := by
  have h1 : listMin (finiteList (![![some 1, none], ![some 3, some 0]] : OptGrid 2))
      = some 0 :=
    of_decide_eq_true (by with_unfolding_all rfl)
  have h2 : listMin (nonzeroList (![![0, 2], ![3, 0]] : Grid 2)) = some 2 :=
    of_decide_eq_true (by with_unfolding_all rfl)
  exact ⟨h1, h2, C2_theorem _ _ 0 2 h1 h2⟩

/-- C4, amended: in log mode with the caller's bounds not both given,
the normalization handed to `imshow` is `LogNorm` over the min and max
of the zero-substituted histogram, and these derived bounds are strictly
positive.  (When the caller gives both bounds they are forwarded
unchecked — see the counterexample, where `vmin = 0` reaches
`LogNorm`.) -/
theorem C4_theorem {x y : List ℚ} {labels : List String} {b : ℕ} {avg : Option String}
    {vmin vmax : Option ℚ} {rng} {r : HeatmapResult b}
    (h : plot_heatmap x y labels b avg (some "log") vmin vmax rng = .ok r)
    (hb : ¬(vmin.isSome ∧ vmax.isSome)) :
    r.norm = .log (gridMin r.Himg) (gridMax r.Himg) ∧
    0 < gridMin r.Himg ∧ gridMin r.Himg ≤ gridMax r.Himg := by
  obtain ⟨Hraw, Hfix, Himg, n, ext, lims, hlen, hraw, hfix, hnorm, hext, hlims, hr⟩ :=
    plot_heatmap_ok_parts h
  obtain ⟨hfz, hn⟩ := normStep_log_derived hb hnorm
  have hpos := fixZeros_ok_pos
    (fixNonfinite_ok_nonneg (applyAvg_nonneg (histogram2d_ok_nonneg hraw)) hfix) hfz
  have hgm := gridMin_pos_of_pos (histogram2d_ok_bpos hraw) hpos
  subst hr
  exact ⟨hn, hgm.1, hgm.2⟩

/-- C4, counterexample: `norm='log'` with caller bounds `vmin = 0`,
`vmax = 10` on a histogram with zero cells passes `LogNorm(0, 10)` to
the renderer — the lower bound is zero, not strictly positive. -/
theorem C4_counterexample :
    okHrawList (plot_heatmap [(0 : ℚ), 1] [0, 1] [] 2 none (some "log") (some 0) (some 10) none)
      = some [1, 0, 0, 1] ∧
    okNorm (plot_heatmap [(0 : ℚ), 1] [0, 1] [] 2 none (some "log") (some 0) (some 10) none)
      = some (.log 0 10) ∧
    ¬(0 : ℚ) < 0 :=
  ⟨of_decide_eq_true (by with_unfolding_all rfl),
   of_decide_eq_true (by with_unfolding_all rfl),
   by norm_num⟩

theorem C4_witness :
    okNorm (plot_heatmap [(0 : ℚ), 1] [0, 1] [] 2 none (some "log") none none none)
      = some (.log 1 1) ∧
    (NormOut.log 1 1 = .log (gridMin (![![(1 : ℚ), 1], ![1, 1]] : Grid 2))
        (gridMax (![![(1 : ℚ), 1], ![1, 1]] : Grid 2)) ∧
      0 < gridMin (![![(1 : ℚ), 1], ![1, 1]] : Grid 2) ∧
      gridMin (![![(1 : ℚ), 1], ![1, 1]] : Grid 2)
        ≤ gridMax (![![(1 : ℚ), 1], ![1, 1]] : Grid 2)) := by
  have h : plot_heatmap [(0 : ℚ), 1] [0, 1] [] 2 none (some "log") none none none
      = .ok ⟨["x axis", "y axis", "Number"], ![![1, 0], ![0, 1]],
        ![![some 1, some 0], ![some 0, some 1]], ![![1, 0], ![0, 1]],
        ![![1, 1], ![1, 1]], .log 1 1, (0, 1, 0, 1), ![![1, 1], ![1, 1]],
        (0, 1), (0, 1)⟩ :=
    of_decide_eq_true (by with_unfolding_all rfl)
  have hc := C4_theorem h (by simp)
  exact ⟨by rw [h]; rfl, hc⟩

/-- C6: the final axis limits are always the data extent — for every
`hist_range`, including one different from the data extent. -/
theorem C6_theorem {x y : List ℚ} {labels : List String} {b : ℕ} {avg norm : Option String}
    {vmin vmax : Option ℚ} {rng} {r : HeatmapResult b} {xmn xmx ymn ymx : ℚ}
    (h : plot_heatmap x y labels b avg norm vmin vmax rng = .ok r)
    (hx1 : npMin x = .ok xmn) (hx2 : npMax x = .ok xmx)
    (hy1 : npMin y = .ok ymn) (hy2 : npMax y = .ok ymx) :
    r.xlim = (xmn, xmx) ∧ r.ylim = (ymn, ymx) := by
  obtain ⟨Hraw, Hfix, Himg, n, ext, lims, hlen, hraw, hfix, hnorm, hext, hlims, hr⟩ :=
    plot_heatmap_ok_parts h
  obtain ⟨l1, l2, l3, l4⟩ := limsStep_ok hlims
  subst hr
  injection hx1.symm.trans l1 with e1
  injection hx2.symm.trans l2 with e2
  injection hy1.symm.trans l3 with e3
  injection hy2.symm.trans l4 with e4
  subst e1; subst e2; subst e3; subst e4
  exact ⟨Prod.mk.eta.symm, Prod.mk.eta.symm⟩

theorem C6_witness :
    okXlim (plot_heatmap [(0 : ℚ), 2] [1, 3] [] 1 none none none none (some ((5, 6), (7, 8))))
      = some (0, 2) ∧
    okYlim (plot_heatmap [(0 : ℚ), 2] [1, 3] [] 1 none none none none (some ((5, 6), (7, 8))))
      = some (1, 3) := by
  have h : plot_heatmap [(0 : ℚ), 2] [1, 3] [] 1 none none none none (some ((5, 6), (7, 8)))
      = .ok ⟨["x axis", "y axis", "Number"], ![![0]], ![![some 0]], ![![0]], ![![0]],
        .str none, (5, 6, 7, 8), ![![0]], (0, 2), (1, 3)⟩ :=
    of_decide_eq_true (by with_unfolding_all rfl)
  have hc := C6_theorem h (by with_unfolding_all rfl) (by with_unfolding_all rfl)
    (by with_unfolding_all rfl) (by with_unfolding_all rfl)
  exact ⟨by rw [h]; exact congrArg some hc.1, by rw [h]; exact congrArg some hc.2⟩

/-- C7: the image handed to `imshow` is the transpose of the processed
histogram, over the extent `hist_range` when given and the data min/max
per axis otherwise. -/
theorem C7_theorem {x y : List ℚ} {labels : List String} {b : ℕ} {avg norm : Option String}
    {vmin vmax : Option ℚ} {rng} {r : HeatmapResult b}
    (h : plot_heatmap x y labels b avg norm vmin vmax rng = .ok r) :
    r.image = (fun i j => r.Himg j i) ∧
    (∀ a c d e, rng = some ((a, c), (d, e)) → r.extent = (a, c, d, e)) ∧
    (rng = none → ∀ xmn xmx ymn ymx, npMin x = .ok xmn → npMax x = .ok xmx →
      npMin y = .ok ymn → npMax y = .ok ymx → r.extent = (xmn, xmx, ymn, ymx)) := by
  obtain ⟨Hraw, Hfix, Himg, n, ext, lims, hlen, hraw, hfix, hnorm, hext, hlims, hr⟩ :=
    plot_heatmap_ok_parts h
  obtain ⟨a0, c0, d0, e0⟩ := ext
  subst hr
  refine ⟨rfl, ?_, ?_⟩
  · intro a c d e hrng
    subst hrng
    simp only [extentStep] at hext
    exact (Except.ok.inj hext).symm
  · intro hrng xmn xmx ymn ymx hx1 hx2 hy1 hy2
    subst hrng
    obtain ⟨e1, e2, e3, e4⟩ := extentStep_none_ok hext
    injection hx1.symm.trans e1 with g1
    injection hx2.symm.trans e2 with g2
    injection hy1.symm.trans e3 with g3
    injection hy2.symm.trans e4 with g4
    subst g1; subst g2; subst g3; subst g4
    rfl

theorem C7_witness :
    okExtent (plot_heatmap [(0 : ℚ), 4] [1, 5] [] 1 none none none none
        (some ((2, 3), (6, 7)))) = some (2, 3, 6, 7) ∧
    okExtent (plot_heatmap [(0 : ℚ), 4] [1, 5] [] 1 none none none none none)
      = some (0, 4, 1, 5) := by
  have h1 : plot_heatmap [(0 : ℚ), 4] [1, 5] [] 1 none none none none (some ((2, 3), (6, 7)))
      = .ok ⟨["x axis", "y axis", "Number"], ![![0]], ![![some 0]], ![![0]], ![![0]],
        .str none, (2, 3, 6, 7), ![![0]], (0, 4), (1, 5)⟩ :=
    of_decide_eq_true (by with_unfolding_all rfl)
  have h2 : plot_heatmap [(0 : ℚ), 4] [1, 5] [] 1 none none none none none
      = .ok ⟨["x axis", "y axis", "Number"], ![![2]], ![![some 2]], ![![2]], ![![2]],
        .str none, (0, 4, 1, 5), ![![2]], (0, 4), (1, 5)⟩ :=
    of_decide_eq_true (by with_unfolding_all rfl)
  have hc1 := (C7_theorem h1).2.1 2 3 6 7 rfl
  have hc2 := (C7_theorem h2).2.2 rfl 0 4 1 5 (by with_unfolding_all rfl)
    (by with_unfolding_all rfl) (by with_unfolding_all rfl) (by with_unfolding_all rfl)
  exact ⟨by rw [h1]; exact congrArg some hc1, by rw [h2]; exact congrArg some hc2⟩

/-- C5: a successful `plot_polar_heatmap` hands `plot_polar_contour`
the raw histogram unchanged, together with angle and radius axes that
are `bins` linearly spaced values spanning the min-to-max extent of the
*original* theta and radius samples (for `bins ≥ 2` the first and last
axis entries are exactly those minima and maxima) — not an extent
derived from the Cartesian-binned histogram. -/
theorem C5_theorem {C S : ℚ → ℚ} {radius theta : List ℚ} {b : ℕ} {r : PolarArgs b}
    {tmn tmx rmn rmx : ℚ} (h : plot_polar_heatmap C S radius theta b = .ok r)
    (ht1 : npMin theta = .ok tmn) (ht2 : npMax theta = .ok tmx)
    (hr1 : npMin radius = .ok rmn) (hr2 : npMax radius = .ok rmx) :
    r.angles = npLinspace tmn tmx b ∧ r.radius = npLinspace rmn rmx b ∧
    r.angles.length = b ∧ r.radius.length = b ∧
    (∀ x y, npBroadcast (fun rr t => rr * C t) radius theta = .ok x →
      npBroadcast (fun rr t => rr * S t) radius theta = .ok y →
      histogram2d x y b none = .ok r.heatmap) ∧
    (2 ≤ b → r.angles.head? = some tmn ∧ r.angles.getLast? = some tmx ∧
      r.radius.head? = some rmn ∧ r.radius.getLast? = some rmx) := by
  obtain ⟨x, y, heatmap, tmn2, tmx2, rmn2, rmx2, hx, hy, hlen, hh, ht12, ht22, hr12, hr22, hr⟩ :=
    plot_polar_heatmap_ok_parts h
  injection ht1.symm.trans ht12 with e1
  injection ht2.symm.trans ht22 with e2
  injection hr1.symm.trans hr12 with e3
  injection hr2.symm.trans hr22 with e4
  subst e1; subst e2; subst e3; subst e4
  subst hr
  refine ⟨rfl, rfl, npLinspace_length _ _ _, npLinspace_length _ _ _, ?_, ?_⟩
  · intro x2 y2 hx2 hy2
    injection hx.symm.trans hx2 with ex
    injection hy.symm.trans hy2 with ey
    subst ex
    subst ey
    exact hh
  · intro hb2
    exact ⟨npLinspace_head (by omega), npLinspace_getLast hb2,
      npLinspace_head (by omega), npLinspace_getLast hb2⟩

theorem C5_witness :
    plot_polar_heatmap id id [1, 2] [0, 90] 2
      = .ok ⟨![![1, 0], ![0, 1]], [0, 90], [1, 2]⟩ ∧
    [(0 : ℚ), 90] = npLinspace 0 90 2 ∧
    [(1 : ℚ), 2] = npLinspace 1 2 2 ∧
    ([(0 : ℚ), 90].head? = some 0 ∧ [(0 : ℚ), 90].getLast? = some 90 ∧
      [(1 : ℚ), 2].head? = some 1 ∧ [(1 : ℚ), 2].getLast? = some 2) := by
  have h : plot_polar_heatmap id id [1, 2] [0, 90] 2
      = .ok ⟨![![1, 0], ![0, 1]], [0, 90], [1, 2]⟩ :=
    of_decide_eq_true (by with_unfolding_all rfl)
  have hc := C5_theorem h (by with_unfolding_all rfl) (by with_unfolding_all rfl)
    (by with_unfolding_all rfl) (by with_unfolding_all rfl)
  exact ⟨h, hc.1, hc.2.1, hc.2.2.2.2.2 (by omega)⟩
